import Mathlib

set_option maxHeartbeats 1000000
set_option maxRecDepth 100000

/-! Shallow embedding of the clause segmentation and risk-matching engine of
`app.py` (functions `segment_into_clauses`, `analyze_clause_risk`,
`generate_redline`, and the `RISK_PATTERNS` table).  Text is modelled as Lean
`String` (a list of characters); Python string/regex primitives restricted to
ASCII are modelled explicitly below. -/

/-- Characters recognised as whitespace by Python's `\s` (in `re.split`) and by
`str.strip`, restricted to ASCII: space, tab, newline, carriage return,
vertical tab, form feed. -/
def isPySpace (c : Char) : Bool :=
  c == ' ' || c == '\t' || c == '\n' || c == '\r' || c == '\x0b' || c == '\x0c'

/-- Python `str.lower`, restricted to ASCII letters. -/
def lowerS (s : String) : String :=
  ⟨s.data.map Char.toLower⟩

/-- Tests whether the first list is a leading segment of the second
(character-by-character comparison). -/
def startsL : List Char → List Char → Bool
  | [], _ => true
  | _ :: _, [] => false
  | a :: xs, b :: ys => a == b && startsL xs ys

/-- Python substring containment `needle in hay` on character lists: some
position of `hay` starts with `needle` (the empty needle is contained in
everything, as in Python). -/
def containsSub (hay needle : List Char) : Bool :=
  match hay with
  | [] => needle.isEmpty
  | _ :: t => startsL needle hay || containsSub t needle

/-- Python `str.strip` on a character list: drop leading and trailing
whitespace. -/
def stripL (l : List Char) : List Char :=
  ((l.dropWhile isPySpace).reverse.dropWhile isPySpace).reverse

/-- Python `str.strip` on strings. -/
def pyStrip (s : String) : String :=
  ⟨stripL s.data⟩

/-- One attempted match of the boundary pattern of `app.py` line 83,
`re.split` pattern `\n\s*\n+|\n\s*\d+\.`, at the current scan position: `c` is
the character at the position and `rest` the characters after it.  On a match,
returns the number of characters of `rest` consumed beyond the leading
newline.  The first alternative matches when the whitespace run after the
leading newline contains another newline; backtracking of the greedy `\s*`
makes the match end just after the last newline of that run.  Otherwise the
second alternative matches when the whitespace run is followed by one or more
digits and a dot. -/
def matchRest (c : Char) (rest : List Char) : Option Nat :=
  if c == '\n' then
    let run := rest.takeWhile isPySpace
    if run.contains '\n' then
      some (run.length - (run.reverse.takeWhile (fun d => !(d == '\n'))).length)
    else
      let afterRun := rest.drop run.length
      let digits := afterRun.takeWhile Char.isDigit
      match digits, afterRun.drop digits.length with
      | _ :: _, '.' :: _ => some (run.length + digits.length + 1)
      | _, _ => none
  else
    none

/-- Left-to-right scanner implementing `re.split(r'\n\s*\n+|\n\s*\d+\.', text)`:
at each position try the pattern; on a match, close the current fragment and
continue after the match, otherwise move one character forward.  `fuel` bounds
the recursion; every step consumes at least one character, so `fuel =
length of the text` is always sufficient and the fuel-exhaustion branch is
unreachable when called through `pySplit`. -/
def splitGo : Nat → List Char → List Char → List (List Char)
  | _, [], cur => [cur.reverse]
  | 0, s, cur => [cur.reverse ++ s]
  | fuel + 1, c :: rest, cur =>
    match matchRest c rest with
    | some n => cur.reverse :: splitGo fuel (rest.drop n) []
    | none => splitGo fuel rest (c :: cur)

/-- `re.split(r'\n\s*\n+|\n\s*\d+\.', text)` from `segment_into_clauses`. -/
def pySplit (text : String) : List String :=
  (splitGo text.data.length text.data []).map (fun l => ⟨l⟩)

/-- One risk finding, as produced per (clause, category) match by
`analyze_clause_risk` (the dict appended at lines 108-114 of `app.py`). -/
structure RiskFinding where
  type : String
  risk_level : String
  matched_keywords : List String
  rationale : String
  suggestion : String
  deriving DecidableEq

/-- One clause record as produced by `segment_into_clauses` (lines 90-94 of
`app.py`). -/
structure Clause where
  id : Nat
  text : String
  detected_risks : List RiskFinding
  deriving DecidableEq

/-- The value part of one `RISK_PATTERNS` entry. -/
structure RiskData where
  keywords : List String
  risk_level : String
  rationale : String
  suggestion : String
  deriving DecidableEq

def liabilityEntry : String × RiskData :=
  ("liability",
    ⟨["unlimited liability", "no limitation", "all liability", "any and all liability",
      "indemnify", "hold harmless", "without limitation", "to the fullest extent"],
     "High",
     "Unlimited liability clauses expose the organization to excessive financial risk.",
     "Liability should be limited to direct damages and capped at a reasonable amount (e.g., fees paid in the last 12 months)."⟩)

def terminationEntry : String × RiskData :=
  ("termination",
    ⟨["termination for convenience", "terminate at will", "without cause",
      "immediate termination", "no notice"],
     "Medium",
     "Lack of termination protections can result in sudden contract cancellations.",
     "Include minimum notice periods (e.g., 30-90 days) and allow termination only for material breach or with adequate notice."⟩)

def intellectualPropertyEntry : String × RiskData :=
  ("intellectual_property",
    ⟨["all rights", "exclusive rights", "assign all intellectual property",
      "waive all rights", "work for hire", "transfer of ownership"],
     "High",
     "Broad IP assignment can result in loss of valuable intellectual property.",
     "Limit IP transfer to only what is necessary for the specific project. Retain ownership of pre-existing IP and general methodologies."⟩)

def confidentialityEntry : String × RiskData :=
  ("confidentiality",
    ⟨["perpetual confidentiality", "indefinite", "in perpetuity",
      "no time limit", "forever"],
     "Medium",
     "Indefinite confidentiality obligations create long-term compliance burdens.",
     "Limit confidentiality obligations to 3-5 years post-contract termination, with standard exceptions for publicly available information."⟩)

def paymentEntry : String × RiskData :=
  ("payment",
    ⟨["non-refundable", "upfront payment", "payment in full",
      "immediate payment", "no refunds"],
     "Medium",
     "Unfavorable payment terms can create cash flow issues and limit recourse.",
     "Structure payments based on milestones or deliverables. Include provisions for refunds in case of non-performance."⟩)

def warrantyEntry : String × RiskData :=
  ("warranty",
    ⟨["no warranty", "as is", "without warranty", "disclaim all warranties",
      "no guarantee", "express or implied"],
     "High",
     "Absence of warranties leaves no recourse if deliverables are defective.",
     "Include express warranties for fitness for purpose, merchantability, and compliance with specifications for a reasonable period."⟩)

def disputeResolutionEntry : String × RiskData :=
  ("dispute_resolution",
    ⟨["exclusive jurisdiction", "mandatory arbitration", "waive right to jury",
      "binding arbitration", "foreign jurisdiction"],
     "Medium",
     "Unfavorable dispute resolution terms can make it difficult and expensive to resolve conflicts.",
     "Negotiate for mutual jurisdiction, mediation before arbitration, and reasonable venue selection."⟩)

def forceMajeureEntry : String × RiskData :=
  ("force_majeure",
    ⟨["no force majeure", "limited force majeure", "excludes pandemic",
      "narrow force majeure"],
     "Low",
     "Narrow force majeure clauses may not protect against unforeseen events.",
     "Include comprehensive force majeure language covering natural disasters, pandemics, government actions, and other unforeseeable events."⟩)

/-- The `RISK_PATTERNS` dict of `app.py` (lines 9-66); a Python dict preserves
insertion order, so it is modelled as an ordered association list. -/
def RISK_PATTERNS : List (String × RiskData) :=
  [liabilityEntry, terminationEntry, intellectualPropertyEntry, confidentialityEntry,
   paymentEntry, warrantyEntry, disputeResolutionEntry, forceMajeureEntry]

/-- Python `str.title` restricted to ASCII: the flag records whether the
previous character was a letter; a letter is uppercased after a non-letter and
lowercased after a letter. -/
def titleGo : Bool → List Char → List Char
  | _, [] => []
  | prevAlpha, c :: cs =>
    (if c.isAlpha then (if prevAlpha then c.toLower else c.toUpper) else c) :: titleGo c.isAlpha cs

/-- `risk_type.replace('_', ' ').title()` from line 109 of `app.py`. -/
def displayName (name : String) : String :=
  ⟨titleGo false (name.data.map (fun c => if c == '_' then ' ' else c))⟩

/-- The keyword test of line 105 of `app.py`: `kw.lower() in clause_lower`
where `clause_lower = clause_text.lower()`. -/
def kwMatches (clause_text kw : String) : Bool :=
  containsSub (lowerS clause_text).data (lowerS kw).data

/-- The body of the `for risk_type, risk_data in RISK_PATTERNS.items()` loop of
`analyze_clause_risk` (lines 103-114 of `app.py`): filter the category's
keywords against the lowered clause text and append one finding when the
filter is non-empty. -/
def riskStep (clause_lower : String) (detected_risks : List RiskFinding)
    (rp : String × RiskData) : List RiskFinding :=
  let matchedKws := rp.2.keywords.filter (fun kw => containsSub clause_lower.data (lowerS kw).data)
  if matchedKws.isEmpty then detected_risks
  else detected_risks ++
    [⟨displayName rp.1, rp.2.risk_level, matchedKws, rp.2.rationale, rp.2.suggestion⟩]

/-- `analyze_clause_risk` of `app.py` (lines 98-116). -/
def analyze_clause_risk (clause_text : String) : List RiskFinding :=
  let clause_lower := lowerS clause_text
  RISK_PATTERNS.foldl (riskStep clause_lower) []

/-- The finding `analyze_clause_risk` produces for a matching category. -/
def mkFinding (clause_text : String) (rp : String × RiskData) : RiskFinding :=
  ⟨displayName rp.1, rp.2.risk_level, rp.2.keywords.filter (kwMatches clause_text),
   rp.2.rationale, rp.2.suggestion⟩

/-- The `for i, para in enumerate(paragraphs)` loop of `segment_into_clauses`
(lines 87-94 of `app.py`): `i` counts every raw fragment, retained or not, and
a fragment is kept exactly when its stripped length exceeds 50. -/
def collect : Nat → List String → List Clause
  | _, [] => []
  | i, para :: rest =>
    let cleaned := pyStrip para
    if 50 < cleaned.data.length then ⟨i + 1, cleaned, []⟩ :: collect (i + 1) rest
    else collect (i + 1) rest

/-- `segment_into_clauses` of `app.py` (lines 80-96). -/
def segment_into_clauses (text : String) : List Clause :=
  collect 0 (pySplit text)

def liabilityRedline : String :=
  "SUGGESTED REDLINE: \"Party\x27s total liability under this Agreement shall be limited to direct damages only and shall not exceed the total fees paid by Client in the twelve (12) months preceding the claim.\""

def terminationRedline : String :=
  "SUGGESTED REDLINE: \"Either party may terminate this Agreement for convenience upon ninety (90) days prior written notice. In case of material breach, termination may occur with thirty (30) days notice and opportunity to cure.\""

def intellectualPropertyRedline : String :=
  "SUGGESTED REDLINE: \"Client shall own IP specifically created for this project. Provider retains ownership of pre-existing IP, tools, methodologies, and any general knowledge or experience gained.\""

def confidentialityRedline : String :=
  "SUGGESTED REDLINE: \"Confidentiality obligations shall survive for three (3) years following termination, except for information that: (a) is publicly available, (b) was known prior to disclosure, or (c) is independently developed.\""

def paymentRedline : String :=
  "SUGGESTED REDLINE: \"Payment shall be made in installments based on project milestones: 30% upon signing, 40% upon milestone completion, 30% upon final delivery and acceptance.\""

def warrantyRedline : String :=
  "SUGGESTED REDLINE: \"Provider warrants that deliverables will conform to specifications and be fit for their intended purpose for ninety (90) days. Provider will remedy any defects at no additional cost during this period.\""

def disputeResolutionRedline : String :=
  "SUGGESTED REDLINE: \"Disputes shall first be addressed through good-faith negotiation, followed by mediation if necessary. If unresolved, disputes may proceed to arbitration under mutually agreed rules in a neutral jurisdiction.\""

def forceMajeureRedline : String :=
  "SUGGESTED REDLINE: \"Neither party shall be liable for delays or failures due to force majeure events including natural disasters, pandemics, war, government actions, or other events beyond reasonable control.\""

/-- The `suggestions` dict local to `generate_redline` (lines 120-129 of
`app.py`), in insertion order. -/
def suggestions : List (String × String) :=
  [("Liability", liabilityRedline),
   ("Termination", terminationRedline),
   ("Intellectual Property", intellectualPropertyRedline),
   ("Confidentiality", confidentialityRedline),
   ("Payment", paymentRedline),
   ("Warranty", warrantyRedline),
   ("Dispute Resolution", disputeResolutionRedline),
   ("Force Majeure", forceMajeureRedline)]

/-- `generate_redline` of `app.py` (lines 118-131):
`suggestions.get(risk_type, 'No specific redline suggestion available.')`. -/
def generate_redline (original_text risk_type : String) : String :=
  match suggestions.find? (fun kv => kv.1 == risk_type) with
  | some kv => kv.2
  | none => "No specific redline suggestion available."

/-! Concrete inputs used by counterexamples and witnesses. -/

/-- The end-to-end scenario input of the spec. -/
def c3text : String :=
  "This agreement provides unlimited liability and no warranty.\n\nTermination requires no notice."

def c3Frag1 : String := "This agreement provides unlimited liability and no warranty."

def c3Frag2 : String := "Termination requires no notice."

def c3Clause : Clause := ⟨1, c3Frag1, []⟩

/-- A 60-character fragment (long enough to be retained). -/
def sixtyA : String := ⟨List.replicate 60 'a'⟩

/-- A short first fragment followed by a long second fragment: the survivor
receives id 2, exposing the pre-filter numbering. -/
def cexText : String := "tiny\n\n" ++ sixtyA

/-- A fragment whose trimmed length is exactly the threshold value 50. -/
def fiftyB : String := ⟨List.replicate 50 'b'⟩

def wsText : String := " \t \n  \n "

def caseUpperText : String :=
  "The Vendor agrees to INDEMNIFY and protect the Customer in all events."

def caseLowerText : String :=
  "The Vendor agrees to indemnify and protect the Customer in all events."

/-! Helper lemmas. -/

lemma dropWhile_twice (p : Char → Bool) : ∀ l : List Char,
    (l.dropWhile p).dropWhile p = l.dropWhile p := by
  intro l
  induction l with
  | nil => rfl
  | cons a t ih =>
    by_cases h : p a
    · simp only [List.dropWhile_cons, h, if_true]
      exact ih
    · simp [List.dropWhile_cons, h]

lemma dropWhile_length_le (p : Char → Bool) (t : List Char) :
    (t.dropWhile p).length ≤ t.length := by
  induction t with
  | nil => simp
  | cons a t ih =>
    by_cases h : p a
    · simp only [List.dropWhile_cons, h, if_true, List.length_cons]
      omega
    · simp [List.dropWhile_cons, h]

lemma dropWhile_is_suffix (p : Char → Bool) : ∀ l : List Char, l.dropWhile p <:+ l := by
  intro l
  induction l with
  | nil => exact List.suffix_refl _
  | cons a t ih =>
    by_cases h : p a
    · simp only [List.dropWhile_cons, h, if_true]
      exact ih.trans (List.suffix_cons a t)
    · simp [List.dropWhile_cons, h]

lemma dropWhile_reverse_dropWhile (p : Char → Bool) (x : List Char)
    (hx : x.dropWhile p = x) :
    ((x.reverse.dropWhile p).reverse).dropWhile p = (x.reverse.dropWhile p).reverse := by
  cases x with
  | nil => simp
  | cons a t =>
    have ha : p a = false := by
      by_contra hpa
      rw [Bool.not_eq_false] at hpa
      have h1 : (a :: t : List Char).dropWhile p = t.dropWhile p := by
        simp [List.dropWhile_cons, hpa]
      rw [hx] at h1
      have h2 := congrArg List.length h1
      have h3 : (t.dropWhile p).length ≤ t.length := dropWhile_length_le p t
      simp only [List.length_cons] at h2
      omega
    have hsuf : (a :: t).reverse.dropWhile p <:+ (a :: t).reverse := dropWhile_is_suffix p _
    have hpre : ((a :: t).reverse.dropWhile p).reverse <+: (a :: t).reverse.reverse :=
      List.reverse_prefix.mpr hsuf
    rw [List.reverse_reverse] at hpre
    rcases hE : ((a :: t).reverse.dropWhile p).reverse with _ | ⟨b, t'⟩
    · simp
    · rw [hE] at hpre
      obtain ⟨r, hr⟩ := hpre
      simp only [List.cons_append] at hr
      injection hr with hba _
      subst hba
      simp [List.dropWhile_cons, ha]

lemma stripL_idem (l : List Char) : stripL (stripL l) = stripL l := by
  unfold stripL
  rw [dropWhile_reverse_dropWhile isPySpace (l.dropWhile isPySpace) (dropWhile_twice isPySpace l)]
  rw [List.reverse_reverse, dropWhile_twice]

lemma dropWhile_eq_nil_of_all (p : Char → Bool) : ∀ l : List Char,
    (∀ a ∈ l, p a = true) → l.dropWhile p = [] := by
  intro l
  induction l with
  | nil => intro _; rfl
  | cons a t ih =>
    intro h
    rw [List.dropWhile_cons, if_pos (h a (List.mem_cons_self a t))]
    exact ih (fun b hb => h b (List.mem_cons_of_mem a hb))

lemma splitGo_chars : ∀ (fuel : Nat) (s cur l : List Char),
    l ∈ splitGo fuel s cur → ∀ ch ∈ l, ch ∈ s ∨ ch ∈ cur := by
  intro fuel
  induction fuel with
  | zero =>
    intro s cur l hl ch hch
    cases s with
    | nil =>
      simp only [splitGo, List.mem_singleton] at hl
      subst hl
      right
      exact List.mem_reverse.mp hch
    | cons c rest =>
      simp only [splitGo, List.mem_singleton] at hl
      subst hl
      rcases List.mem_append.mp hch with h | h
      · right; exact List.mem_reverse.mp h
      · left; exact h
  | succ fuel ih =>
    intro s cur l hl ch hch
    cases s with
    | nil =>
      simp only [splitGo, List.mem_singleton] at hl
      subst hl
      right
      exact List.mem_reverse.mp hch
    | cons c rest =>
      simp only [splitGo] at hl
      cases hm : matchRest c rest with
      | some n =>
        rw [hm] at hl
        rcases List.mem_cons.mp hl with h | h
        · subst h; right; exact List.mem_reverse.mp hch
        · rcases ih (rest.drop n) [] l h ch hch with h2 | h2
          · left
            exact List.mem_cons_of_mem c (List.drop_subset n rest h2)
          · simp at h2
      | none =>
        rw [hm] at hl
        rcases ih rest (c :: cur) l hl ch hch with h2 | h2
        · left; exact List.mem_cons_of_mem c h2
        · rcases List.mem_cons.mp h2 with h3 | h3
          · left; rw [h3]; exact List.mem_cons_self c rest
          · right; exact h3

lemma collect_id_gt : ∀ (ps : List String) (n : Nat) (c : Clause),
    c ∈ collect n ps → n < c.id := by
  intro ps
  induction ps with
  | nil => intro n c hc; simp [collect] at hc
  | cons p rest ih =>
    intro n c hc
    rw [collect] at hc
    by_cases h : 50 < (pyStrip p).data.length
    · rw [if_pos h] at hc
      rcases List.mem_cons.mp hc with h1 | h1
      · rw [h1]; exact Nat.lt_succ_self n
      · exact Nat.lt_of_succ_lt (ih (n + 1) c h1)
    · rw [if_neg h] at hc
      exact Nat.lt_of_succ_lt (ih (n + 1) c hc)

lemma collect_pairwise : ∀ (ps : List String) (n : Nat),
    (collect n ps).Pairwise (fun a b => a.id < b.id) := by
  intro ps
  induction ps with
  | nil => intro n; simp [collect]
  | cons p rest ih =>
    intro n
    rw [collect]
    by_cases h : 50 < (pyStrip p).data.length
    · rw [if_pos h]
      refine List.Pairwise.cons ?_ (ih (n + 1))
      intro b hb
      exact collect_id_gt rest (n + 1) b hb
    · rw [if_neg h]
      exact ih (n + 1)

lemma collect_mem_spec : ∀ (ps : List String) (n : Nat) (c : Clause), c ∈ collect n ps →
    ∃ i p, ps.get? i = some p ∧ c.id = n + i + 1 ∧ c.text = pyStrip p ∧
      50 < (pyStrip p).data.length ∧ c.detected_risks = [] := by
  intro ps
  induction ps with
  | nil => intro n c hc; simp [collect] at hc
  | cons p rest ih =>
    intro n c hc
    rw [collect] at hc
    by_cases h : 50 < (pyStrip p).data.length
    · rw [if_pos h] at hc
      rcases List.mem_cons.mp hc with h1 | h1
      · subst h1
        exact ⟨0, p, rfl, rfl, rfl, h, rfl⟩
      · obtain ⟨i, q, hget, hid, htext, hlen, hdr⟩ := ih (n + 1) c h1
        exact ⟨i + 1, q, hget, by omega, htext, hlen, hdr⟩
    · rw [if_neg h] at hc
      obtain ⟨i, q, hget, hid, htext, hlen, hdr⟩ := ih (n + 1) c hc
      exact ⟨i + 1, q, hget, by omega, htext, hlen, hdr⟩

lemma collect_mem_of_get : ∀ (ps : List String) (n i : Nat) (p : String),
    ps.get? i = some p → 50 < (pyStrip p).data.length →
    (⟨n + i + 1, pyStrip p, []⟩ : Clause) ∈ collect n ps := by
  intro ps
  induction ps with
  | nil => intro n i p hget _; simp at hget
  | cons q rest ih =>
    intro n i p hget hlen
    cases i with
    | zero =>
      injection hget with hqp
      subst hqp
      rw [collect, if_pos hlen]
      exact List.mem_cons_self _ _
    | succ i =>
      have hmem := ih (n + 1) i p hget hlen
      have heq : n + (i + 1) + 1 = (n + 1) + i + 1 := by omega
      rw [collect]
      by_cases h : 50 < (pyStrip q).data.length
      · rw [if_pos h]
        refine List.mem_cons_of_mem _ ?_
        rw [heq]
        exact hmem
      · rw [if_neg h, heq]
        exact hmem

lemma collect_nil_of_short : ∀ (ps : List String) (n : Nat),
    (∀ p ∈ ps, ¬ 50 < (pyStrip p).data.length) → collect n ps = [] := by
  intro ps
  induction ps with
  | nil => intro n _; rfl
  | cons p rest ih =>
    intro n hall
    rw [collect, if_neg (hall p (List.mem_cons_self p rest))]
    exact ih (n + 1) (fun q hq => hall q (List.mem_cons_of_mem p hq))

lemma riskStep_eq (t : String) (acc : List RiskFinding) (rp : String × RiskData) :
    riskStep (lowerS t) acc rp =
      if (rp.2.keywords.filter (kwMatches t)).isEmpty then acc
      else acc ++ [mkFinding t rp] := rfl

lemma foldl_riskStep (t : String) : ∀ (l : List (String × RiskData)) (init : List RiskFinding),
    l.foldl (riskStep (lowerS t)) init
      = init ++
        (l.filter fun rp => !(rp.2.keywords.filter (kwMatches t)).isEmpty).map (mkFinding t) := by
  intro l
  induction l with
  | nil => intro init; simp
  | cons rp l ih =>
    intro init
    rw [List.foldl_cons, riskStep_eq, ih]
    by_cases h : (rp.2.keywords.filter (kwMatches t)).isEmpty
    · simp [h, List.filter_cons]
    · simp [h, List.filter_cons]

lemma analyze_eq (t : String) :
    analyze_clause_risk t
      = (RISK_PATTERNS.filter fun rp => !(rp.2.keywords.filter (kwMatches t)).isEmpty).map
          (mkFinding t) := by
  show RISK_PATTERNS.foldl (riskStep (lowerS t)) [] = _
  rw [foldl_riskStep]
  simp

/-- The eight display names of `RISK_PATTERNS` are pairwise distinct, so the
`type` field of a finding identifies its source category. -/
lemma dispInj : ∀ c ∈ RISK_PATTERNS, ∀ c' ∈ RISK_PATTERNS,
    displayName c.1 = displayName c'.1 → c = c' := by decide

lemma namesNodup : (RISK_PATTERNS.map fun c => displayName c.1).Nodup := by decide

lemma redline_of_entry : ∀ c ∈ RISK_PATTERNS,
    generate_redline "" (displayName c.1) ≠ "No specific redline suggestion available." := by
  decide

/-! Claim theorems. -/

/-- Claim C1, counterexample: on an input whose first raw fragment is too
short, the single surviving clause carries id 2, so the ids of the returned
clauses are not the dense sequence 1..N over retained clauses. -/
theorem segment_ids_not_dense_cex :
    (segment_into_clauses cexText).map Clause.id = [2] ∧
    (segment_into_clauses cexText).length = 1 ∧
    (segment_into_clauses cexText).map Clause.id ≠ [1] := by decide

/-- Claim C1 (amended): clause ids are strictly increasing in document order,
but they are assigned before the minimum-length filter: each retained clause's
id is one plus the index of its source fragment in the raw split, so ids may
have gaps and need not be 1..N. -/
theorem segment_ids_prefilter (text : String) :
    ((segment_into_clauses text).Pairwise fun a b => a.id < b.id) ∧
    ∀ c ∈ segment_into_clauses text,
      ∃ p, (pySplit text).get? (c.id - 1) = some p ∧ c.text = pyStrip p ∧
        50 < (pyStrip p).data.length := by
  constructor
  · exact collect_pairwise (pySplit text) 0
  · intro c hc
    obtain ⟨i, p, hget, hid, htext, hlen, _⟩ := collect_mem_spec (pySplit text) 0 c hc
    refine ⟨p, ?_, htext, hlen⟩
    have h : c.id - 1 = i := by omega
    rw [h]
    exact hget

/-- Witness for `segment_ids_prefilter` at the concrete gap-producing input. -/
theorem segment_ids_prefilter_wit :
    ∃ p, (pySplit cexText).get? ((⟨2, sixtyA, []⟩ : Clause).id - 1) = some p ∧
      (⟨2, sixtyA, []⟩ : Clause).text = pyStrip p ∧ 50 < (pyStrip p).data.length :=
  (segment_ids_prefilter cexText).2 ⟨2, sixtyA, []⟩ (by decide)

/-- Claim C2, counterexample: a fragment whose trimmed length is exactly the
threshold value 50 is excluded by `segment_into_clauses`, because the source
test is the strict `len(cleaned) > 50`. -/
theorem min_length_boundary_cex :
    pySplit fiftyB = [fiftyB] ∧ (pyStrip fiftyB).data.length = 50 ∧
    segment_into_clauses fiftyB = [] := by decide

/-- Claim C2 (amended): a raw fragment is retained if and only if its trimmed
length strictly exceeds 50; trimmed lengths 49 and 50 are both excluded and 51
is included — the boundary is exclusive of the threshold value. -/
theorem segment_retained_iff_longer_than_50 (text : String) (i : Nat) (p : String)
    (hp : (pySplit text).get? i = some p) :
    (∃ c ∈ segment_into_clauses text, c.id = i + 1) ↔ 50 < (pyStrip p).data.length := by
  constructor
  · rintro ⟨c, hc, hid⟩
    obtain ⟨j, q, hget, hjid, _, hlen, _⟩ := collect_mem_spec (pySplit text) 0 c hc
    have hij : j = i := by omega
    subst hij
    rw [hp] at hget
    injection hget with h
    subst h
    exact hlen
  · intro hlen
    exact ⟨⟨0 + i + 1, pyStrip p, []⟩,
      collect_mem_of_get (pySplit text) 0 i p hp hlen, by simp⟩

/-- Witness for `segment_retained_iff_longer_than_50`: the 60-character second
fragment of `cexText` is retained. -/
theorem segment_retained_iff_longer_than_50_wit :
    ∃ c ∈ segment_into_clauses cexText, c.id = 1 + 1 :=
  (segment_retained_iff_longer_than_50 cexText 1 sixtyA (by decide)).mpr (by decide)

/-- Claim C3, counterexample: on the spec's end-to-end scenario input the
hypothesis fails — not every fragment exceeds 50 trimmed characters (the
second has 31) — and segmentation yields one clause, not two. -/
theorem scenario_two_clauses_cex :
    (segment_into_clauses c3text).length = 1 ∧
    ¬ ∀ p ∈ pySplit c3text, 50 < (pyStrip p).data.length := by decide

/-- Claim C3 (amended): on the scenario input the second fragment
("Termination requires no notice.", trimmed length 31) is dropped, so
segmentation yields exactly the one clause holding the first fragment;
classifying that clause yields liability (keyword "unlimited liability") and
warranty (keyword "no warranty"); classifying the second fragment's text
directly yields a single termination finding (keyword "no notice"). -/
theorem scenario_one_clause_findings :
    segment_into_clauses c3text = [c3Clause] ∧
    (analyze_clause_risk c3Frag1).map (fun f => (f.type, f.matched_keywords))
      = [("Liability", ["unlimited liability"]), ("Warranty", ["no warranty"])] ∧
    (analyze_clause_risk c3Frag2).map (fun f => (f.type, f.matched_keywords))
      = [("Termination", ["no notice"])] ∧
    (pyStrip c3Frag2).data.length = 31 := by decide

/-- Claim C4: classification is deterministic — two calls of
`analyze_clause_risk` on identical clause text yield identical finding
sequences (same findings, same order, identical matched-keyword lists). -/
theorem analyze_deterministic (t₁ t₂ : String) (h : t₁ = t₂) :
    analyze_clause_risk t₁ = analyze_clause_risk t₂ := by rw [h]

/-- Witness for `analyze_deterministic`. -/
theorem analyze_deterministic_wit :
    analyze_clause_risk c3Frag1 = analyze_clause_risk c3Frag1 :=
  analyze_deterministic c3Frag1 c3Frag1 rfl

/-- Claim C5: keyword matching is case-insensitive — clause texts that agree
after lowercasing produce identical findings (same categories, same reported
keywords). -/
theorem analyze_case_insensitive (t₁ t₂ : String) (h : lowerS t₁ = lowerS t₂) :
    analyze_clause_risk t₁ = analyze_clause_risk t₂ := by
  show RISK_PATTERNS.foldl (riskStep (lowerS t₁)) []
      = RISK_PATTERNS.foldl (riskStep (lowerS t₂)) []
  rw [h]

/-- Witness for `analyze_case_insensitive`: a clause containing "INDEMNIFY"
matches the liability category exactly as one containing "indemnify". -/
theorem analyze_case_insensitive_wit :
    analyze_clause_risk caseUpperText = analyze_clause_risk caseLowerText ∧
    (analyze_clause_risk caseUpperText).map (fun f => f.type) = ["Liability"] :=
  ⟨analyze_case_insensitive caseUpperText caseLowerText (by decide), by decide⟩

/-- Claim C6: a finding for a category exists iff some keyword of that
category occurs (case-insensitively, as a substring) in the clause text; a
matching category's finding lists every matching keyword in declared keyword
order; findings appear in the taxonomy's declared category order (the output
is the taxonomy filtered to matching categories, mapped to findings); and a
clause matching no keyword of any category yields no findings. -/
theorem analyze_characterization (t : String) (rp : String × RiskData)
    (hrp : rp ∈ RISK_PATTERNS) :
    ((∃ f ∈ analyze_clause_risk t, f.type = displayName rp.1) ↔
      ∃ kw ∈ rp.2.keywords, kwMatches t kw = true) ∧
    (∀ f ∈ analyze_clause_risk t, f.type = displayName rp.1 →
      f.matched_keywords = rp.2.keywords.filter (kwMatches t)) ∧
    analyze_clause_risk t =
      (RISK_PATTERNS.filter fun c => !(c.2.keywords.filter (kwMatches t)).isEmpty).map
        (mkFinding t) ∧
    ((∀ c ∈ RISK_PATTERNS, ∀ kw ∈ c.2.keywords, kwMatches t kw = false) →
      analyze_clause_risk t = []) := by
  refine ⟨⟨?_, ?_⟩, ?_, analyze_eq t, ?_⟩
  · rintro ⟨f, hf, hty⟩
    rw [analyze_eq] at hf
    obtain ⟨c, hcf, rfl⟩ := List.mem_map.mp hf
    obtain ⟨hcRP, hpred⟩ := List.mem_filter.mp hcf
    have hceq : c = rp := dispInj c hcRP rp hrp hty
    subst hceq
    have hpred' : (!(c.2.keywords.filter (kwMatches t)).isEmpty) = true := hpred
    by_contra hno
    push_neg at hno
    have hnil : c.2.keywords.filter (kwMatches t) = [] := by
      apply List.filter_eq_nil_iff.mpr
      intro kw hkw
      simp [hno kw hkw]
    rw [hnil] at hpred'
    simp at hpred'
  · rintro ⟨kw, hkw, hm⟩
    refine ⟨mkFinding t rp, ?_, rfl⟩
    rw [analyze_eq]
    apply List.mem_map_of_mem
    apply List.mem_filter.mpr
    refine ⟨hrp, ?_⟩
    have hmem : kw ∈ rp.2.keywords.filter (kwMatches t) := List.mem_filter.mpr ⟨hkw, hm⟩
    have hne : rp.2.keywords.filter (kwMatches t) ≠ [] := by
      intro hq
      rw [hq] at hmem
      simp at hmem
    show (!(rp.2.keywords.filter (kwMatches t)).isEmpty) = true
    rcases hq : rp.2.keywords.filter (kwMatches t) with _ | ⟨a, l⟩
    · exact absurd hq hne
    · rfl
  · intro f hf hty
    rw [analyze_eq] at hf
    obtain ⟨c, hcf, rfl⟩ := List.mem_map.mp hf
    obtain ⟨hcRP, _⟩ := List.mem_filter.mp hcf
    have hceq : c = rp := dispInj c hcRP rp hrp hty
    subst hceq
    rfl
  · intro hnone
    rw [analyze_eq]
    have hfil : (RISK_PATTERNS.filter
        fun c => !(c.2.keywords.filter (kwMatches t)).isEmpty) = [] := by
      apply List.filter_eq_nil_iff.mpr
      intro c hcRP
      have hnil : c.2.keywords.filter (kwMatches t) = [] := by
        apply List.filter_eq_nil_iff.mpr
        intro kw hkw
        rw [hnone c hcRP kw hkw]
        simp
      rw [hnil]
      simp
    rw [hfil]
    rfl

/-- Witness for `analyze_characterization`: the scenario clause yields a
warranty finding because it contains the keyword "no warranty". -/
theorem analyze_characterization_wit :
    ∃ f ∈ analyze_clause_risk c3Frag1, f.type = displayName warrantyEntry.1 :=
  (analyze_characterization c3Frag1 warrantyEntry (by decide)).1.mpr
    ⟨"no warranty", by decide, by decide⟩

/-- Claim C7: `generate_redline` ignores the original clause text, returns the
registered template verbatim for every known category name, and returns the
fixed fallback string for every unregistered name; being a total Lean
function, it fails on no input. -/
theorem generate_redline_spec (o₁ o₂ rt : String) :
    generate_redline o₁ rt = generate_redline o₂ rt ∧
    (∀ tmpl, (rt, tmpl) ∈ suggestions → generate_redline o₁ rt = tmpl) ∧
    (rt ∉ suggestions.map Prod.fst →
      generate_redline o₁ rt = "No specific redline suggestion available.") := by
  refine ⟨rfl, ?_, ?_⟩
  · intro tmpl h
    simp only [suggestions, List.mem_cons, List.not_mem_nil, or_false] at h
    rcases h with h | h | h | h | h | h | h | h <;>
      (rw [Prod.mk.injEq] at h; obtain ⟨h1, h2⟩ := h; subst h1; subst h2; rfl)
  · intro h
    have hf : suggestions.find? (fun kv => kv.1 == rt) = none := by
      rw [List.find?_eq_none]
      intro kv hkv
      simp only [beq_iff_eq]
      intro heq
      exact h (heq ▸ List.mem_map_of_mem Prod.fst hkv)
    unfold generate_redline
    rw [hf]

/-- Witness for `generate_redline_spec`: lookup of the known name "Liability"
and of an unregistered name. -/
theorem generate_redline_spec_wit :
    generate_redline "alpha" "Liability" = generate_redline "beta" "Liability" ∧
    generate_redline "alpha" "Liability" = liabilityRedline ∧
    generate_redline "alpha" "Unknown" = "No specific redline suggestion available." :=
  ⟨(generate_redline_spec "alpha" "beta" "Liability").1,
   (generate_redline_spec "alpha" "beta" "Liability").2.1 liabilityRedline (by decide),
   (generate_redline_spec "alpha" "beta" "Unknown").2.2 (by decide)⟩

/-- Claim C8: the empty string and every whitespace-only string segment to the
empty clause sequence (the total Lean functions raise nothing on any input),
and consequently yield zero total findings. -/
theorem segment_empty_whitespace :
    segment_into_clauses "" = [] ∧
    ∀ s : String, (∀ ch ∈ s.data, isPySpace ch = true) →
      segment_into_clauses s = [] ∧
      ((segment_into_clauses s).map fun c => (analyze_clause_risk c.text).length).sum = 0 := by
  refine ⟨by decide, ?_⟩
  intro s hs
  have hseg : segment_into_clauses s = [] := by
    apply collect_nil_of_short
    intro p hp
    obtain ⟨l, hl, rfl⟩ := List.mem_map.mp hp
    have hchars : ∀ ch ∈ l, isPySpace ch = true := by
      intro ch hch
      rcases splitGo_chars s.data.length s.data [] l hl ch hch with h | h
      · exact hs ch h
      · simp at h
    have hstrip : stripL l = [] := by
      unfold stripL
      rw [dropWhile_eq_nil_of_all isPySpace l hchars]
      rfl
    have h50 : (pyStrip (⟨l⟩ : String)).data.length = 0 := by
      show (stripL l).length = 0
      rw [hstrip]
      rfl
    rw [h50]
    omega
  refine ⟨hseg, ?_⟩
  rw [hseg]
  rfl

/-- Witness for `segment_empty_whitespace` at a concrete whitespace-only
string. -/
theorem segment_empty_whitespace_wit :
    segment_into_clauses wsText = [] ∧
    ((segment_into_clauses wsText).map fun c => (analyze_clause_risk c.text).length).sum = 0 :=
  segment_empty_whitespace.2 wsText (by decide)

/-- Claim C9: every clause returned by `segment_into_clauses` carries the
trimmed text of some raw fragment (so stripping it again changes nothing) and
that text is never shorter than the configured minimum length of 50. -/
theorem segment_text_trimmed_min_length (text : String) (c : Clause)
    (hc : c ∈ segment_into_clauses text) :
    pyStrip c.text = c.text ∧ 50 ≤ c.text.data.length ∧
    ∃ p ∈ pySplit text, c.text = pyStrip p := by
  obtain ⟨i, p, hget, _, htext, hlen, _⟩ := collect_mem_spec (pySplit text) 0 c hc
  have hpmem : p ∈ pySplit text := List.get?_mem hget
  refine ⟨?_, ?_, p, hpmem, htext⟩
  · rw [htext]
    show (⟨stripL (stripL p.data)⟩ : String) = ⟨stripL p.data⟩
    rw [stripL_idem]
  · rw [htext]
    exact Nat.le_of_lt hlen

/-- Witness for `segment_text_trimmed_min_length` at the scenario input. -/
theorem segment_text_trimmed_min_length_wit :
    pyStrip c3Clause.text = c3Clause.text ∧ 50 ≤ c3Clause.text.data.length ∧
    ∃ p ∈ pySplit c3text, c3Clause.text = pyStrip p :=
  segment_text_trimmed_min_length c3text c3Clause (by decide)

/-- Claim C10: every emitted finding has a non-empty matched-keyword list; a
clause yields at most one finding per category, hence at most 8 findings with
pairwise distinct type names; and every emitted type name has a registered
template, so `generate_redline` never answers the fallback string for it. -/
theorem analyze_invariants (t : String) :
    (∀ f ∈ analyze_clause_risk t, f.matched_keywords ≠ [] ∧
      ∀ o : String, generate_redline o f.type ≠ "No specific redline suggestion available.") ∧
    (analyze_clause_risk t).length ≤ 8 ∧
    ((analyze_clause_risk t).map fun f => f.type).Nodup := by
  refine ⟨?_, ?_, ?_⟩
  · intro f hf
    rw [analyze_eq] at hf
    obtain ⟨c, hcf, rfl⟩ := List.mem_map.mp hf
    obtain ⟨hcRP, hpred⟩ := List.mem_filter.mp hcf
    constructor
    · intro hnil
      have hnil' : c.2.keywords.filter (kwMatches t) = [] := hnil
      have hpred' : (!(c.2.keywords.filter (kwMatches t)).isEmpty) = true := hpred
      rw [hnil'] at hpred'
      simp at hpred'
    · intro o
      exact redline_of_entry c hcRP
  · rw [analyze_eq, List.length_map]
    exact Nat.le_trans (List.length_filter_le _ _) (by decide)
  · rw [analyze_eq, List.map_map]
    have h1 : ((fun f : RiskFinding => f.type) ∘ mkFinding t)
        = fun c : String × RiskData => displayName c.1 := rfl
    rw [h1]
    have h2 : (RISK_PATTERNS.filter
          fun c => !(c.2.keywords.filter (kwMatches t)).isEmpty).Sublist RISK_PATTERNS :=
      List.filter_sublist _
    exact namesNodup.sublist (h2.map _)

/-- Witness for `analyze_invariants` at the scenario clause and its liability
finding. -/
theorem analyze_invariants_wit :
    (mkFinding c3Frag1 liabilityEntry).matched_keywords ≠ [] ∧
    (analyze_clause_risk c3Frag1).length ≤ 8 :=
  ⟨((analyze_invariants c3Frag1).1 (mkFinding c3Frag1 liabilityEntry) (by decide)).1,
   (analyze_invariants c3Frag1).2.1⟩
